import Mathlib

/-!
# Verification of the robot-manufactory GraphQL API resolvers

A shallow embedding of the resolver layer of `robot/schema.py` (the second,
effective `Query`/`Mutation` classes — Python keeps the later definition)
over the data model of `robot/models.py`.

Modelling conventions:
* database rows are Lean structures, a table is a `List` of rows;
* primary keys are `Nat`, timestamps (`datetime`) are `Int`,
  Python floats (`metric_value`, aggregate results) are idealised as `ℚ`;
* a GraphQL optional argument is an `Option`; Python's `if arg:` truthiness
  test is embedded per type (`None`/`""`/`0` are falsy), `is not None`
  checks are `Option.isSome` matches;
* Django queryset `filter` chains become `List.filter` chains on the store;
* opaque JSON `metadata` fields are not modelled (no claim touches them).
-/

namespace RobotAPI

/-- `robot.models.Robot` (fields the resolvers under verification touch;
`kinematics_profile`, `safety_envelope`, `calibration_notes` and the
auto-managed audit timestamps are never read by them). -/
structure Robot where
  id : Nat
  serial : String
  model : String
  capabilities : List String
  location : String
  status : String
  firmware_version : String
  last_seen : Option Int
deriving DecidableEq, Repr

/-- `robot.models.Task`. `assigned_robot` holds the robot's primary key. -/
structure Task where
  id : Nat
  required_capabilities : List String
  status : String
  assigned_robot : Option Nat
  priority : Int
  deadline : Option Int
  created_at : Int
deriving DecidableEq, Repr

/-- `robot.models.TelemetryPoint` (opaque `metadata` JSON not modelled). -/
structure TelemetryPoint where
  id : Nat
  robot_id : Nat
  timestamp : Int
  metric_name : String
  metric_value : ℚ
deriving DecidableEq, Repr

/-- `robot.models.MaintenanceEvent` (`performed_by` not modelled: no
resolver under verification reads it). -/
structure MaintenanceEvent where
  id : Nat
  robot_id : Nat
  timestamp : Int
  type : String
  notes : String
  cost : Option ℚ
deriving DecidableEq, Repr

/-- `robot.models.Prediction`. -/
structure Prediction where
  id : Nat
  robot_id : Nat
  timestamp : Int
  prediction_type : String
  value : ℚ
  model_version : String
deriving DecidableEq, Repr

/-- The values of `robot.enumerations.RobotStatus`. -/
def robotStatusValues : List String :=
  ["IDLE", "ACTIVE", "OFFLINE", "ERROR", "MAINTENANCE"]

/-- The values of `robot.enumerations.TaskStatus`. -/
def taskStatusValues : List String :=
  ["PENDING", "ASSIGNED", "RUNNING", "COMPLETED", "FAILED", "CANCELLED"]

/-! ## Case-insensitive substring matching (Django `__icontains`) -/

/-- The characters of a string, lower-cased. -/
def lowerChars (s : String) : List Char := s.data.map Char.toLower

/-- `startsWithChars pat l` : `pat` is an initial segment of `l`. -/
def startsWithChars : List Char → List Char → Bool
  | [], _ => true
  | _ :: _, [] => false
  | a :: as, b :: bs => a == b && startsWithChars as bs

/-- `hasSubChars pat l` : `pat` occurs contiguously inside `l`. -/
def hasSubChars (pat : List Char) : List Char → Bool
  | [] => pat.isEmpty
  | c :: rest => startsWithChars pat (c :: rest) || hasSubChars pat rest

/-- Django's `field__icontains=pat`: case-insensitive containment of `pat`
in the field value `hay`. -/
def icontains (hay pat : String) : Bool :=
  hasSubChars (lowerChars pat) (lowerChars hay)

theorem hasSubChars_nil (l : List Char) : hasSubChars [] l = true := by
  induction l with
  | nil => rfl
  | cons c rest ih => simp [hasSubChars, startsWithChars]

theorem icontains_empty_pattern (hay : String) : icontains hay "" = true := by
  simp [icontains, lowerChars, hasSubChars_nil]

/-! ## Optional-argument filter application

Each resolver line `if arg: qs = qs.filter(...)` is one `optFilter` stage:
the filter applies exactly when the argument is present (`some`) and truthy.
-/

/-- One `if arg: qs = qs.filter(pred)` stage of a resolver. -/
def optFilter (qs : List α) (o : Option β) (truthy : β → Bool)
    (pred : β → α → Bool) : List α :=
  match o with
  | some v => if truthy v then qs.filter (pred v) else qs
  | none => qs

/-- The row-level predicate an `optFilter` stage imposes. -/
def optPass (o : Option β) (truthy : β → Bool) (pred : β → α → Bool) :
    α → Bool :=
  match o with
  | some v => if truthy v then pred v else fun _ => true
  | none => fun _ => true

theorem optFilter_eq_filter (qs : List α) (o : Option β) (truthy : β → Bool)
    (pred : β → α → Bool) :
    optFilter qs o truthy pred = qs.filter (optPass o truthy pred) := by
  cases o with
  | none => simp [optFilter, optPass, List.filter_true]
  | some v =>
    by_cases h : truthy v = true <;>
      simp [optFilter, optPass, h, List.filter_true]

theorem mem_optFilter (qs : List α) (o : Option β) (truthy : β → Bool)
    (pred : β → α → Bool) (a : α) :
    a ∈ optFilter qs o truthy pred ↔
      a ∈ qs ∧ optPass o truthy pred a = true := by
  rw [optFilter_eq_filter, List.mem_filter]

/-- Python truthiness of an optional string argument: present and nonempty. -/
def strTruthy (s : String) : Bool := !(s == "")

/-! ## `Query.robots` (schema.py lines 676–697) -/

/-- `Query.robots`: all robots, with optional `model`/`location`/`serial`
case-insensitive substring filters and exact `status` filter.  Each
argument is applied through Python's `if arg:` truthiness test, so a
`None` or `""` argument imposes no constraint. -/
def robots (store : List Robot)
    (model status location serial : Option String) : List Robot :=
  let qs := store
  let qs := optFilter qs model strTruthy (fun v r => icontains r.model v)
  let qs := optFilter qs status strTruthy (fun v r => r.status == v)
  let qs := optFilter qs location strTruthy (fun v r => icontains r.location v)
  let qs := optFilter qs serial strTruthy (fun v r => icontains r.serial v)
  qs

theorem mem_robots (store : List Robot)
    (model status location serial : Option String) (r : Robot) :
    r ∈ robots store model status location serial ↔
      r ∈ store ∧
      optPass model strTruthy (fun v r => icontains r.model v) r = true ∧
      optPass status strTruthy (fun v r => r.status == v) r = true ∧
      optPass location strTruthy (fun v r => icontains r.location v) r = true ∧
      optPass serial strTruthy (fun v r => icontains r.serial v) r = true := by
  simp only [robots, mem_optFilter]
  tauto

/-- The spec's words for claim C1: every present argument is applied, an
empty string included — `model`/`location`/`serial` as case-insensitive
substring match, `status` as exact match.  To be compared with `robots`,
which is embedded from the source. -/
def robotsSpecConjunctive (store : List Robot)
    (model status location serial : Option String) : List Robot :=
  store.filter fun r =>
    (match model with | some v => icontains r.model v | none => true) &&
    (match status with | some v => r.status == v | none => true) &&
    (match location with | some v => icontains r.location v | none => true) &&
    (match serial with | some v => icontains r.serial v | none => true)

/-- C1, counterexample to the claim as stated: on a one-robot store whose
robot has the legal status `"IDLE"`, the query `robots(status := "")`
returns the robot, while the claimed semantics (`status` present, exact
match) returns nothing: the code treats an empty-string `status` as
absent. -/
theorem robots_empty_status_counterexample :
    (robots [{ id := 1, serial := "RBT-001", model := "X",
               capabilities := [], location := "", status := "IDLE",
               firmware_version := "", last_seen := none }]
        none (some "") none none =
      [{ id := 1, serial := "RBT-001", model := "X",
         capabilities := [], location := "", status := "IDLE",
         firmware_version := "", last_seen := none }]) ∧
    robotsSpecConjunctive
        [{ id := 1, serial := "RBT-001", model := "X",
           capabilities := [], location := "", status := "IDLE",
           firmware_version := "", last_seen := none }]
        none (some "") none none = [] := by
  constructor <;> rfl

/-- C1 (amended: an empty-string argument is treated as omitted; for the
substring-matched arguments this agrees with the claim, since an empty
pattern matches every string, but an empty-string `status` imposes no
constraint instead of an exact match with `""`): the `robots` query is
conjunctive — its result set is the intersection of each individual
argument's matching set; with all arguments omitted it returns every
robot; each single-argument matching set is characterised by its
substring / exact-match predicate. -/
theorem robots_filters_conjunctive (store : List Robot)
    (model status location serial : Option String) (r : Robot) :
    (r ∈ robots store model status location serial ↔
       (r ∈ robots store model none none none ∧
        r ∈ robots store none status none none ∧
        r ∈ robots store none none location none ∧
        r ∈ robots store none none none serial)) ∧
    robots store none none none none = store ∧
    (∀ v, r ∈ robots store (some v) none none none ↔
       r ∈ store ∧ icontains r.model v = true) ∧
    (∀ v, v ≠ "" → (r ∈ robots store none (some v) none none ↔
       r ∈ store ∧ r.status = v)) ∧
    (r ∈ robots store none (some "") none none ↔ r ∈ store) ∧
    (∀ v, r ∈ robots store none none (some v) none ↔
       r ∈ store ∧ icontains r.location v = true) ∧
    (∀ v, r ∈ robots store none none none (some v) ↔
       r ∈ store ∧ icontains r.serial v = true) := by
  refine ⟨?_, ?_, ?_, ?_, ?_, ?_, ?_⟩
  · simp only [mem_robots]
    tauto
  · rfl
  · intro v
    by_cases h : v = ""
    · subst h
      simp [mem_robots, optPass, strTruthy, icontains_empty_pattern]
    · simp [mem_robots, optPass, strTruthy, h]
  · intro v hv
    simp [mem_robots, optPass, strTruthy, hv]
  · simp [mem_robots, optPass, strTruthy]
  · intro v
    by_cases h : v = ""
    · subst h
      simp [mem_robots, optPass, strTruthy, icontains_empty_pattern]
    · simp [mem_robots, optPass, strTruthy, h]
  · intro v
    by_cases h : v = ""
    · subst h
      simp [mem_robots, optPass, strTruthy, icontains_empty_pattern]
    · simp [mem_robots, optPass, strTruthy, h]

/-- C1, witness: the amended theorem applied at a concrete store and
arguments, its inner non-empty-status hypothesis discharged at
`"IDLE"`. -/
theorem robots_filters_conjunctive_witness :
    ({ id := 1, serial := "RBT-001", model := "WeldingBot",
       capabilities := [], location := "Floor A", status := "IDLE",
       firmware_version := "", last_seen := none } : Robot) ∈
        robots [{ id := 1, serial := "RBT-001", model := "WeldingBot",
                  capabilities := [], location := "Floor A",
                  status := "IDLE", firmware_version := "",
                  last_seen := none }] none (some "IDLE") none none ↔
      ({ id := 1, serial := "RBT-001", model := "WeldingBot",
         capabilities := [], location := "Floor A", status := "IDLE",
         firmware_version := "", last_seen := none } : Robot) ∈
          [{ id := 1, serial := "RBT-001", model := "WeldingBot",
             capabilities := [], location := "Floor A", status := "IDLE",
             firmware_version := "", last_seen := none }] ∧
        ({ id := 1, serial := "RBT-001", model := "WeldingBot",
           capabilities := [], location := "Floor A", status := "IDLE",
           firmware_version := "", last_seen := none } : Robot).status =
          "IDLE" :=
  ((robots_filters_conjunctive _ none (some "IDLE") none none
        _).2.2.2.1 "IDLE" (by decide))

/-! ## `Query.tasks` (schema.py lines 717–752) -/

/-- `Query.tasks`: optional exact `status` filter (truthiness-guarded),
inclusive `priority_min`/`priority_max` bounds and the `robot_id` /
`has_deadline` filters.  The numeric and boolean arguments are guarded
with `is not None`, so a provided `0` or `False` still applies; `status`
and `robot_id` are guarded with Python truthiness. -/
def tasks (store : List Task) (status : Option String)
    (priority_min priority_max : Option Int) (robot_id : Option Nat)
    (has_deadline : Option Bool) : List Task :=
  let qs := store
  let qs := optFilter qs status strTruthy (fun v t => t.status == v)
  let qs := optFilter qs priority_min (fun _ => true)
    (fun v t => decide (v ≤ t.priority))
  let qs := optFilter qs priority_max (fun _ => true)
    (fun v t => decide (t.priority ≤ v))
  let qs := optFilter qs robot_id (fun _ => true)
    (fun v t => t.assigned_robot == some v)
  let qs := optFilter qs has_deadline (fun _ => true)
    (fun v t => if v then !t.deadline.isNone else t.deadline.isNone)
  qs

/-- C2: the `tasks` priority bounds are inclusive (membership with both
bounds present is exactly `min ≤ priority ≤ max`), and a provided `0` or
`false` still applies the filter: `priorityMax = 0` keeps exactly the
tasks with non-positive priority, `priorityMin = 0` exactly those with
non-negative priority, and `hasDeadline = false` exactly those with no
deadline. -/
theorem tasks_inclusive_bounds_and_zero_filters (store : List Task)
    (m M : Int) (t : Task) :
    (t ∈ tasks store none (some m) (some M) none none ↔
       t ∈ store ∧ m ≤ t.priority ∧ t.priority ≤ M) ∧
    (t ∈ tasks store none (some 0) none none none ↔
       t ∈ store ∧ 0 ≤ t.priority) ∧
    (t ∈ tasks store none none (some 0) none none ↔
       t ∈ store ∧ t.priority ≤ 0) ∧
    (t ∈ tasks store none none none none (some false) ↔
       t ∈ store ∧ t.deadline = none) ∧
    tasks store none none none none none = store := by
  refine ⟨?_, ?_, ?_, ?_, rfl⟩ <;>
    simp [tasks, mem_optFilter, optPass, Option.isNone_iff_eq_none,
      and_assoc]

theorem optPass_always_iff (o : Option β) (pred : β → α → Bool) (a : α) :
    optPass o (fun _ => true) pred a = true ↔
      ∀ v, o = some v → pred v a = true := by
  cases o <;> simp [optPass]

theorem optPass_strTruthy_iff (o : Option String) (pred : String → α → Bool)
    (a : α) :
    optPass o strTruthy pred a = true ↔
      ∀ v, o = some v → v ≠ "" → pred v a = true := by
  cases o with
  | none => simp [optPass]
  | some v => by_cases h : v = "" <;> simp [optPass, strTruthy, h]

/-! ## `Query.telemetry_points` (schema.py lines 764–791) -/

/-- The filter block shared verbatim by `Query.telemetry_points` and
`Query.telemetry_statistics`: optional robot, metric name and inclusive
timestamp bounds.  `robot_id` is a GraphQL ID (a nonempty string in
transit, modelled as a present key), a `datetime` object is always
truthy, and `metric_name` is string-truthy. -/
def telemetryFilter (store : List TelemetryPoint) (robot_id : Option Nat)
    (metric_name : Option String) (start_date end_date : Option Int) :
    List TelemetryPoint :=
  let qs := store
  let qs := optFilter qs robot_id (fun _ => true)
    (fun v p => p.robot_id == v)
  let qs := optFilter qs metric_name strTruthy
    (fun v p => p.metric_name == v)
  let qs := optFilter qs start_date (fun _ => true)
    (fun v p => decide (v ≤ p.timestamp))
  let qs := optFilter qs end_date (fun _ => true)
    (fun v p => decide (p.timestamp ≤ v))
  qs

/-- `order_by("-timestamp")`: timestamp-descending order. -/
def tsDescRel (p q : TelemetryPoint) : Prop := q.timestamp ≤ p.timestamp

instance : DecidableRel tsDescRel := fun _ _ => Int.decLe _ _

instance : IsTotal TelemetryPoint tsDescRel :=
  ⟨fun a b => le_total b.timestamp a.timestamp⟩

instance : IsTrans TelemetryPoint tsDescRel :=
  ⟨fun _ _ _ h1 h2 => le_trans h2 h1⟩

/-- The ordered (pre-truncation) result of `Query.telemetry_points`. -/
def telemetryOrdered (store : List TelemetryPoint) (robot_id : Option Nat)
    (metric_name : Option String) (start_date end_date : Option Int) :
    List TelemetryPoint :=
  List.insertionSort tsDescRel
    (telemetryFilter store robot_id metric_name start_date end_date)

/-- `Query.telemetry_points`: filter, order by timestamp descending, then
`if limit: qs = qs[:limit]`.  A limit of `None` or `0` is falsy and
leaves the list untruncated; a negative limit reaches Django's queryset
slicing, which refuses negative indices with an error. -/
def telemetry_points (store : List TelemetryPoint) (robot_id : Option Nat)
    (metric_name : Option String) (start_date end_date : Option Int)
    (limit : Option Int) : Except String (List TelemetryPoint) :=
  let qs := telemetryOrdered store robot_id metric_name start_date end_date
  match limit with
  | some n =>
    if n ≠ 0 then
      if n < 0 then Except.error "Negative indexing is not supported."
      else Except.ok (qs.take n.toNat)
    else Except.ok qs
  | none => Except.ok qs

/-- C4, counterexample to the claim as stated: with `limit = 0` the code
skips truncation (Python's `if limit:` is false at `0`) and returns the
whole one-point store instead of at most `0` points. -/
theorem telemetry_points_limit_zero_counterexample :
    telemetry_points
        [{ id := 1, robot_id := 1, timestamp := 0,
           metric_name := "temperature", metric_value := 5 }]
        none none none none (some 0) =
      Except.ok [{ id := 1, robot_id := 1, timestamp := 0,
                   metric_name := "temperature", metric_value := 5 }] ∧
    0 < [({ id := 1, robot_id := 1, timestamp := 0,
            metric_name := "temperature", metric_value := 5 } :
          TelemetryPoint)].length := by
  constructor
  · rfl
  · decide

/-- C4 (amended: a provided `limit = 0` is falsy in the code's
`if limit:` guard and disables truncation, returning every matching
point, exactly as an omitted limit does; only a positive limit
truncates): `telemetry_points` filters with inclusive date bounds,
orders the matches by timestamp descending, and truncates the ordered
list to the first `limit` elements when `limit` is positive — in which
case at most `limit` points are returned. -/
theorem telemetry_points_order_and_truncation (store : List TelemetryPoint)
    (rid : Option Nat) (mn : Option String) (sd ed : Option Int)
    (p : TelemetryPoint) :
    (p ∈ telemetryFilter store rid mn sd ed ↔
       p ∈ store ∧
       (∀ v, rid = some v → p.robot_id = v) ∧
       (∀ v, mn = some v → v ≠ "" → p.metric_name = v) ∧
       (∀ v, sd = some v → v ≤ p.timestamp) ∧
       (∀ v, ed = some v → p.timestamp ≤ v)) ∧
    (telemetryOrdered store rid mn sd ed).Perm
      (telemetryFilter store rid mn sd ed) ∧
    (telemetryOrdered store rid mn sd ed).Pairwise tsDescRel ∧
    telemetry_points store rid mn sd ed none =
      Except.ok (telemetryOrdered store rid mn sd ed) ∧
    telemetry_points store rid mn sd ed (some 0) =
      Except.ok (telemetryOrdered store rid mn sd ed) ∧
    (∀ n : Int, 0 < n →
       telemetry_points store rid mn sd ed (some n) =
         Except.ok ((telemetryOrdered store rid mn sd ed).take n.toNat) ∧
       ((telemetryOrdered store rid mn sd ed).take n.toNat).length ≤
         n.toNat) := by
  refine ⟨?_, List.perm_insertionSort tsDescRel _,
    List.sorted_insertionSort tsDescRel _, rfl, rfl, ?_⟩
  · simp only [telemetryFilter, mem_optFilter, optPass_always_iff,
      optPass_strTruthy_iff, beq_iff_eq, decide_eq_true_eq, and_assoc]
  · intro n hn
    have hne : n ≠ 0 := ne_of_gt hn
    have hnlt : ¬(n < 0) := not_lt.mpr (le_of_lt hn)
    constructor
    · simp [telemetry_points, hne, hnlt]
    · exact List.length_take_le _ _

/-- C4, witness: the amended theorem applied to a concrete two-point
store with `limit = 1`, its positivity hypothesis discharged. -/
theorem telemetry_points_order_and_truncation_witness :
    telemetry_points
        [{ id := 1, robot_id := 1, timestamp := 5,
           metric_name := "temperature", metric_value := 1 },
         { id := 2, robot_id := 1, timestamp := 9,
           metric_name := "temperature", metric_value := 2 }]
        none none none none (some 1) =
      Except.ok ((telemetryOrdered
        [{ id := 1, robot_id := 1, timestamp := 5,
           metric_name := "temperature", metric_value := 1 },
         { id := 2, robot_id := 1, timestamp := 9,
           metric_name := "temperature", metric_value := 2 }]
        none none none none).take (Int.toNat 1)) ∧
    ((telemetryOrdered
        [{ id := 1, robot_id := 1, timestamp := 5,
           metric_name := "temperature", metric_value := 1 },
         { id := 2, robot_id := 1, timestamp := 9,
           metric_name := "temperature", metric_value := 2 }]
        none none none none).take (Int.toNat 1)).length ≤ Int.toNat 1 :=
  ((telemetry_points_order_and_truncation _ none none none none
      { id := 1, robot_id := 1, timestamp := 5,
        metric_name := "temperature", metric_value := 1 }).2.2.2.2.2
    1 (by decide))

/-! ## `Query.overdue_tasks` (schema.py lines 970–986) -/

/-- `order_by("deadline")`: deadline-ascending order (every task the
query keeps has a deadline; `getD` only standardises the comparison). -/
def ddlAscRel (t u : Task) : Prop := t.deadline.getD 0 ≤ u.deadline.getD 0

instance : DecidableRel ddlAscRel := fun _ _ => Int.decLe _ _

instance : IsTotal Task ddlAscRel :=
  ⟨fun a b => le_total (a.deadline.getD 0) (b.deadline.getD 0)⟩

instance : IsTrans Task ddlAscRel := ⟨fun _ _ _ h1 h2 => le_trans h1 h2⟩

/-- `Query.overdue_tasks`: tasks with `deadline__lt = now` (a null
deadline never satisfies a `__lt` lookup) and status in
`PENDING`/`ASSIGNED`/`RUNNING`, ordered by deadline ascending. -/
def overdue_tasks (store : List Task) (now : Int) : List Task :=
  List.insertionSort ddlAscRel
    (store.filter fun t =>
      (match t.deadline with
       | some d => decide (d < now)
       | none => false) &&
      (t.status == "PENDING" || t.status == "ASSIGNED" ||
       t.status == "RUNNING"))

/-- C5: `overdue_tasks` returns exactly the tasks whose deadline is
strictly past and whose status is `PENDING`, `ASSIGNED` or `RUNNING`
(as a permutation facing the ordering), ordered by deadline ascending;
a `COMPLETED`/`FAILED`/`CANCELLED` task is never returned. -/
theorem overdue_tasks_spec (store : List Task) (now : Int) (t : Task) :
    (t ∈ overdue_tasks store now ↔
       t ∈ store ∧ (∃ d, t.deadline = some d ∧ d < now) ∧
       (t.status = "PENDING" ∨ t.status = "ASSIGNED" ∨
        t.status = "RUNNING")) ∧
    ((t.status = "COMPLETED" ∨ t.status = "FAILED" ∨
      t.status = "CANCELLED") → t ∉ overdue_tasks store now) ∧
    (overdue_tasks store now).Pairwise
      (fun a b => ∀ da db, a.deadline = some da → b.deadline = some db →
        da ≤ db) := by
  have hmem : ∀ u : Task, u ∈ overdue_tasks store now ↔
      u ∈ store ∧ (∃ d, u.deadline = some d ∧ d < now) ∧
      (u.status = "PENDING" ∨ u.status = "ASSIGNED" ∨
       u.status = "RUNNING") := by
    intro u
    rw [overdue_tasks, (List.perm_insertionSort ddlAscRel _).mem_iff,
      List.mem_filter]
    cases hd : u.deadline <;> simp [hd, and_assoc, or_assoc]
  refine ⟨hmem t, ?_, ?_⟩
  · intro hstat hin
    rcases (hmem t).mp hin with ⟨-, -, h3⟩
    rcases hstat with h | h | h <;> rcases h3 with h3 | h3 | h3 <;>
      simp [h] at h3
  · exact (List.sorted_insertionSort ddlAscRel _).imp
      (fun {a b} h da db ha hb => by
        simpa [ddlAscRel, ha, hb] using h)

/-- C5, witness: the theorem applied to a one-task store holding a
`COMPLETED` task whose deadline is long past — the task is still not
returned. -/
theorem overdue_tasks_spec_witness :
    ({ id := 1, required_capabilities := [], status := "COMPLETED",
       assigned_robot := none, priority := 0, deadline := some 0,
       created_at := 0 } : Task) ∉
      overdue_tasks
        [{ id := 1, required_capabilities := [], status := "COMPLETED",
           assigned_robot := none, priority := 0, deadline := some 0,
           created_at := 0 }] 100 :=
  (overdue_tasks_spec
      [{ id := 1, required_capabilities := [], status := "COMPLETED",
         assigned_robot := none, priority := 0, deadline := some 0,
         created_at := 0 }] 100
      { id := 1, required_capabilities := [], status := "COMPLETED",
        assigned_robot := none, priority := 0, deadline := some 0,
        created_at := 0 }).2.1 (Or.inl rfl)

/-! ## Fold aggregates (SQL `Min`/`Max` over a nonempty column) -/

theorem foldl_min_mem [LinearOrder α] (x : α) (xs : List α) :
    xs.foldl min x ∈ x :: xs := by
  induction xs generalizing x with
  | nil => simp
  | cons y ys ih =>
    have h := ih (min x y)
    rcases List.mem_cons.mp h with h | h
    · rcases min_choice x y with hc | hc <;> rw [List.foldl_cons, h, hc]
      · exact List.mem_cons_self _ _
      · exact List.mem_cons_of_mem _ (List.mem_cons_self _ _)
    · exact List.mem_cons_of_mem _ (List.mem_cons_of_mem _ h)

theorem foldl_min_le [LinearOrder α] (x : α) (xs : List α) :
    ∀ v ∈ x :: xs, xs.foldl min x ≤ v := by
  induction xs generalizing x with
  | nil => simp
  | cons y ys ih =>
    intro v hv
    have hbase := ih (min x y) (min x y) (List.mem_cons_self _ _)
    rcases List.mem_cons.mp hv with h | h
    · exact le_trans hbase (h ▸ min_le_left x y)
    · rcases List.mem_cons.mp h with h | h
      · exact le_trans hbase (h ▸ min_le_right x y)
      · exact ih (min x y) v (List.mem_cons_of_mem _ h)

theorem foldl_max_mem [LinearOrder α] (x : α) (xs : List α) :
    xs.foldl max x ∈ x :: xs := by
  induction xs generalizing x with
  | nil => simp
  | cons y ys ih =>
    have h := ih (max x y)
    rcases List.mem_cons.mp h with h | h
    · rcases max_choice x y with hc | hc <;> rw [List.foldl_cons, h, hc]
      · exact List.mem_cons_self _ _
      · exact List.mem_cons_of_mem _ (List.mem_cons_self _ _)
    · exact List.mem_cons_of_mem _ (List.mem_cons_of_mem _ h)

theorem le_foldl_max [LinearOrder α] (x : α) (xs : List α) :
    ∀ v ∈ x :: xs, v ≤ xs.foldl max x := by
  induction xs generalizing x with
  | nil => simp
  | cons y ys ih =>
    intro v hv
    have hbase := ih (max x y) (max x y) (List.mem_cons_self _ _)
    rcases List.mem_cons.mp hv with h | h
    · exact le_trans (h ▸ le_max_left x y) hbase
    · rcases List.mem_cons.mp h with h | h
      · exact le_trans (h ▸ le_max_right x y) hbase
      · exact ih (max x y) v (List.mem_cons_of_mem _ h)

/-- SQL `Min` over a column: `0` (SQL NULL) on no rows, else the least
value.  `telemetry_statistics` only reads it on a nonempty queryset. -/
def sqlMin [LinearOrder α] [Zero α] : List α → α
  | [] => 0
  | x :: xs => xs.foldl min x

/-- SQL `Max` over a column. -/
def sqlMax [LinearOrder α] [Zero α] : List α → α
  | [] => 0
  | x :: xs => xs.foldl max x

/-- Python's `x or 0` coalescing in `float(stats[...] or 0)` — the
identity on every rational (`0 or 0` is `0`). -/
def orZero (x : ℚ) : ℚ := if x = 0 then 0 else x

theorem orZero_eq (x : ℚ) : orZero x = x := by
  unfold orZero
  split <;> simp_all

/-! ## `Query.telemetry_statistics` (schema.py lines 801–854) -/

/-- The strawberry type `TelemetryStatistics`. -/
structure TelemetryStatistics where
  count : Nat
  average_value : ℚ
  min_value : ℚ
  max_value : ℚ
  latest_timestamp : Int
deriving DecidableEq, Repr

/-- `Query.telemetry_statistics`: the same filter block as
`telemetry_points`; `None` when the filtered queryset is empty, else the
`Count`/`Avg`/`Min`/`Max` aggregates over `metric_value` and the `Max`
over `timestamp`, each numeric one passed through `float(... or 0)`. -/
def telemetry_statistics (store : List TelemetryPoint)
    (robot_id : Option Nat) (metric_name : Option String)
    (start_date end_date : Option Int) : Option TelemetryStatistics :=
  let qs := telemetryFilter store robot_id metric_name start_date end_date
  if qs.isEmpty then none
  else
    let vals := qs.map (·.metric_value)
    some
      { count := qs.length
        average_value := orZero (vals.sum / qs.length)
        min_value := orZero (sqlMin vals)
        max_value := orZero (sqlMax vals)
        latest_timestamp := sqlMax (qs.map (·.timestamp)) }

/-- C3: `telemetry_statistics` returns `none` exactly when no telemetry
point passes the filters; on a nonempty match it returns the match
count, the exact arithmetic mean (`average * count = sum`), the least
and greatest matched metric values, and the greatest matched
timestamp. -/
theorem telemetry_statistics_spec (store : List TelemetryPoint)
    (rid : Option Nat) (mn : Option String) (sd ed : Option Int) :
    (telemetry_statistics store rid mn sd ed = none ↔
       telemetryFilter store rid mn sd ed = []) ∧
    (∀ s, telemetry_statistics store rid mn sd ed = some s →
       s.count = (telemetryFilter store rid mn sd ed).length ∧
       s.average_value * s.count =
         ((telemetryFilter store rid mn sd ed).map
           (·.metric_value)).sum ∧
       s.min_value ∈ (telemetryFilter store rid mn sd ed).map
         (·.metric_value) ∧
       (∀ v ∈ (telemetryFilter store rid mn sd ed).map (·.metric_value),
         s.min_value ≤ v) ∧
       s.max_value ∈ (telemetryFilter store rid mn sd ed).map
         (·.metric_value) ∧
       (∀ v ∈ (telemetryFilter store rid mn sd ed).map (·.metric_value),
         v ≤ s.max_value) ∧
       s.latest_timestamp ∈ (telemetryFilter store rid mn sd ed).map
         (·.timestamp) ∧
       (∀ ts ∈ (telemetryFilter store rid mn sd ed).map (·.timestamp),
         ts ≤ s.latest_timestamp)) := by
  constructor
  · cases hq : telemetryFilter store rid mn sd ed with
    | nil => simp [telemetry_statistics, hq]
    | cons q qs => simp [telemetry_statistics, hq]
  · intro s hs
    cases hq : telemetryFilter store rid mn sd ed with
    | nil => simp [telemetry_statistics, hq] at hs
    | cons q qs =>
      simp only [telemetry_statistics, hq, List.isEmpty_cons,
        Bool.false_eq_true, if_false, Option.some.injEq] at hs
      subst hs
      refine ⟨rfl, ?_, ?_, ?_, ?_, ?_, ?_, ?_⟩
      · have hlen : (((q :: qs).length : ℚ)) ≠ 0 := by
          have h0 : (0:ℚ) ≤ (qs.length : ℚ) := Nat.cast_nonneg _
          simp only [List.length_cons, Nat.cast_add, Nat.cast_one]
          intro h
          linarith
        simp only [orZero_eq, List.map_cons]
        rw [div_mul_cancel₀ _ hlen]
      · simpa only [orZero_eq, sqlMin, List.map_cons] using
          foldl_min_mem q.metric_value (qs.map (·.metric_value))
      · intro v hv
        simp only [orZero_eq, sqlMin, List.map_cons]
        exact foldl_min_le q.metric_value (qs.map (·.metric_value)) v
          (by simpa using hv)
      · simpa only [orZero_eq, sqlMax, List.map_cons] using
          foldl_max_mem q.metric_value (qs.map (·.metric_value))
      · intro v hv
        simp only [orZero_eq, sqlMax, List.map_cons]
        exact le_foldl_max q.metric_value (qs.map (·.metric_value)) v
          (by simpa using hv)
      · simpa only [sqlMax, List.map_cons] using
          foldl_max_mem q.timestamp (qs.map (·.timestamp))
      · intro ts hts
        simp only [sqlMax, List.map_cons]
        exact le_foldl_max q.timestamp (qs.map (·.timestamp)) ts
          (by simpa using hts)

/-- C3, witness: the empty-versus-`none` equivalence of the theorem at a
concrete one-point store — the instance is inhabited, and on this store
the statistics object is present exactly because the filtered set is. -/
theorem telemetry_statistics_spec_witness :
    telemetry_statistics
        [{ id := 1, robot_id := 1, timestamp := 7,
           metric_name := "temperature", metric_value := 5 }]
        none none none none = none ↔
      telemetryFilter
        [{ id := 1, robot_id := 1, timestamp := 7,
           metric_name := "temperature", metric_value := 5 }]
        none none none none = [] :=
  (telemetry_statistics_spec _ none none none none).1

/-! ## `Query.telemetry_anomalies` (schema.py lines 1214–1271) -/

/-- The points `telemetry_anomalies` considers: exact `metric_name`
match (a required argument, default `"temperature"`), then the optional
`robot_id` filter. -/
def anomalyMatched (store : List TelemetryPoint) (robot_id : Option Nat)
    (metric_name : String) : List TelemetryPoint :=
  let qs := store.filter (fun p => p.metric_name == metric_name)
  optFilter qs robot_id (fun _ => true) (fun v p => p.robot_id == v)

/-- `Query.telemetry_anomalies`: empty when nothing matches; otherwise
the mean of the matched values is computed by a `reduce` sum, the cutoff
is `average * threshold_multiplier`, and the anomalies are the matched
points whose absolute deviation from the mean exceeds the cutoff. -/
def telemetry_anomalies (store : List TelemetryPoint)
    (robot_id : Option Nat) (metric_name : String)
    (threshold_multiplier : ℚ) : List TelemetryPoint :=
  let points := anomalyMatched store robot_id metric_name
  if points.isEmpty then []
  else
    let values := points.map (·.metric_value)
    let total : ℚ := values.foldl (· + ·) 0
    let average : ℚ :=
      if values.isEmpty then 0 else total / (values.length : ℚ)
    let threshold := average * threshold_multiplier
    points.filter (fun p => decide (threshold < |p.metric_value - average|))

/-- The arithmetic mean of the matched metric values. -/
def anomalyMean (store : List TelemetryPoint) (robot_id : Option Nat)
    (metric_name : String) : ℚ :=
  ((anomalyMatched store robot_id metric_name).map (·.metric_value)).sum /
    ((anomalyMatched store robot_id metric_name).length : ℚ)

theorem foldl_add_eq_sum (l : List ℚ) : l.foldl (· + ·) 0 = l.sum := by
  rw [List.sum_eq_foldl]

/-- C10: `telemetry_anomalies` returns the empty list when no point
matches; otherwise it returns exactly the matched points whose distance
from the arithmetic mean of all matched values exceeds
`mean * threshold_multiplier` — a cutoff proportional to the mean
itself — and consequently, whenever all matched values are equal to one
positive value and the multiplier is nonnegative, no point is
returned. -/
theorem telemetry_anomalies_spec (store : List TelemetryPoint)
    (rid : Option Nat) (mname : String) (mult : ℚ) (v : ℚ) :
    (anomalyMatched store rid mname = [] →
       telemetry_anomalies store rid mname mult = []) ∧
    (anomalyMatched store rid mname ≠ [] →
       telemetry_anomalies store rid mname mult =
         (anomalyMatched store rid mname).filter
           (fun p => decide (anomalyMean store rid mname * mult <
             |p.metric_value - anomalyMean store rid mname|))) ∧
    ((∀ p ∈ anomalyMatched store rid mname, p.metric_value = v) →
      0 < v → 0 ≤ mult →
      telemetry_anomalies store rid mname mult = []) := by
  refine ⟨?_, ?_, ?_⟩
  · intro h
    simp [telemetry_anomalies, h]
  · intro h
    cases hq : anomalyMatched store rid mname with
    | nil => exact absurd hq h
    | cons q qs =>
      have hne : ((q :: qs).map (·.metric_value)).isEmpty = false := by simp
      simp only [telemetry_anomalies, hq, List.isEmpty_cons,
        Bool.false_eq_true, if_false, hne]
      rw [foldl_add_eq_sum]
      simp only [anomalyMean, hq, List.length_map]
  · intro hall hv hm
    cases hq : anomalyMatched store rid mname with
    | nil => simp [telemetry_anomalies, hq]
    | cons q qs =>
      have hconst : ∀ x ∈ (q :: qs).map (·.metric_value), x = v := by
        intro x hx
        rcases List.mem_map.mp hx with ⟨p, hp, rfl⟩
        exact hall p (hq ▸ hp)
      have hsum : ((q :: qs).map (·.metric_value)).sum =
          ((q :: qs).map (·.metric_value)).length • v :=
        List.sum_eq_card_nsmul _ v hconst
      have hlen : (((q :: qs).length : ℚ)) ≠ 0 := by
        have h0 : (0:ℚ) ≤ (qs.length : ℚ) := Nat.cast_nonneg _
        simp only [List.length_cons, Nat.cast_add, Nat.cast_one]
        intro h
        linarith
      have hmean : ((q :: qs).map (·.metric_value)).sum /
          (((q :: qs).length : ℕ) : ℚ) = v := by
        rw [hsum, nsmul_eq_mul, List.length_map]
        rw [mul_comm, mul_div_assoc, div_self hlen, mul_one]
      have hne : ((q :: qs).map (·.metric_value)).isEmpty = false := by simp
      simp only [telemetry_anomalies, hq, List.isEmpty_cons,
        Bool.false_eq_true, if_false, hne]
      rw [foldl_add_eq_sum]
      simp only [List.length_map]
      rw [List.filter_eq_nil_iff]
      intro p hp
      have hpv : p.metric_value = v := hall p (hq ▸ hp)
      rw [hmean, hpv, sub_self, abs_zero, decide_eq_true_eq, not_lt]
      exact mul_nonneg (le_of_lt hv) hm

/-- C10, witness: a two-point store whose matched values both equal `5`,
multiplier `2` — the theorem's equal-positive-values branch applies and
no anomaly is reported. -/
theorem telemetry_anomalies_spec_witness :
    telemetry_anomalies
        [{ id := 1, robot_id := 1, timestamp := 0,
           metric_name := "temperature", metric_value := 5 },
         { id := 2, robot_id := 2, timestamp := 1,
           metric_name := "temperature", metric_value := 5 }]
        none "temperature" 2 = [] :=
  (telemetry_anomalies_spec
      [{ id := 1, robot_id := 1, timestamp := 0,
         metric_name := "temperature", metric_value := 5 },
       { id := 2, robot_id := 2, timestamp := 1,
         metric_name := "temperature", metric_value := 5 }]
      none "temperature" 2 5).2.2
    (by decide) (by norm_num) (by norm_num)

/-! ## Delete mutations (schema.py lines 1433–1449, 1491–1498, 1545–1552,
1592–1599, 1635–1642)

All five follow one pattern: `Model.objects.get(pk=id).delete()` inside a
`try`, returning `True`, and `False` on `DoesNotExist`. -/

/-- `try: Model.objects.get(pk=id).delete(); return True
except Model.DoesNotExist: return False` — returns the flag and the
store after the call. -/
def deleteByPk (store : List α) (key : α → Nat) (i : Nat) :
    Bool × List α :=
  match store.find? (fun a => key a == i) with
  | some _ => (true, store.filter (fun a => !(key a == i)))
  | none => (false, store)

/-- `Mutation.delete_robot` (row deletion; the ORM-level cascade to
dependent tables is outside this claim's scope). -/
def delete_robot (store : List Robot) (i : Nat) : Bool × List Robot :=
  deleteByPk store (·.id) i

/-- `Mutation.delete_task`. -/
def delete_task (store : List Task) (i : Nat) : Bool × List Task :=
  deleteByPk store (·.id) i

/-- `Mutation.delete_telemetry`. -/
def delete_telemetry (store : List TelemetryPoint) (i : Nat) :
    Bool × List TelemetryPoint :=
  deleteByPk store (·.id) i

/-- `Mutation.delete_maintenance_event`. -/
def delete_maintenance_event (store : List MaintenanceEvent) (i : Nat) :
    Bool × List MaintenanceEvent :=
  deleteByPk store (·.id) i

/-- `Mutation.delete_prediction`. -/
def delete_prediction (store : List Prediction) (i : Nat) :
    Bool × List Prediction :=
  deleteByPk store (·.id) i

theorem deleteByPk_spec (store : List α) (key : α → Nat) (i : Nat) :
    ((deleteByPk store key i).1 = true ↔ ∃ a ∈ store, key a = i) ∧
    ((deleteByPk store key i).1 = false →
      (deleteByPk store key i).2 = store) ∧
    (∀ a, a ∈ (deleteByPk store key i).2 ↔ a ∈ store ∧ key a ≠ i) := by
  cases hf : store.find? (fun a => key a == i) with
  | some b =>
    have hb := List.find?_some hf
    have hbmem := List.mem_of_find?_eq_some hf
    refine ⟨?_, ?_, ?_⟩
    · simp only [deleteByPk, hf]
      exact ⟨fun _ => ⟨b, hbmem, by simpa using hb⟩, fun _ => by simp⟩
    · simp [deleteByPk, hf]
    · intro a
      simp [deleteByPk, hf, List.mem_filter]
  | none =>
    have hnone := List.find?_eq_none.mp hf
    refine ⟨?_, ?_, ?_⟩
    · simp only [deleteByPk, hf]
      constructor
      · intro h
        exact absurd h (by simp)
      · rintro ⟨a, ha, rfl⟩
        exact absurd (by simp : (key a == key a) = true) (by
          simpa using hnone a ha)
    · intro _
      simp [deleteByPk, hf]
    · intro a
      simp only [deleteByPk, hf]
      constructor
      · intro ha
        refine ⟨ha, fun hk => ?_⟩
        exact absurd (by simpa using hk.symm ▸ rfl : (key a == i) = true)
          (by simpa using hnone a ha)
      · exact fun h => h.1

/-- C7: each delete mutation returns `true` exactly when an entity with
the given id exists; on `false` (no such id) the store is unchanged and
no error is raised — the call still returns; and after the call the
store holds exactly the previous entities whose id differs. -/
theorem delete_mutations_spec (rs : List Robot) (ts : List Task)
    (ps : List TelemetryPoint) (ms : List MaintenanceEvent)
    (prs : List Prediction) (i : Nat) :
    (((delete_robot rs i).1 = true ↔ ∃ r ∈ rs, r.id = i) ∧
     ((delete_robot rs i).1 = false → (delete_robot rs i).2 = rs) ∧
     (∀ r, r ∈ (delete_robot rs i).2 ↔ r ∈ rs ∧ r.id ≠ i)) ∧
    (((delete_task ts i).1 = true ↔ ∃ t ∈ ts, t.id = i) ∧
     ((delete_task ts i).1 = false → (delete_task ts i).2 = ts) ∧
     (∀ t, t ∈ (delete_task ts i).2 ↔ t ∈ ts ∧ t.id ≠ i)) ∧
    (((delete_telemetry ps i).1 = true ↔ ∃ p ∈ ps, p.id = i) ∧
     ((delete_telemetry ps i).1 = false →
       (delete_telemetry ps i).2 = ps) ∧
     (∀ p, p ∈ (delete_telemetry ps i).2 ↔ p ∈ ps ∧ p.id ≠ i)) ∧
    (((delete_maintenance_event ms i).1 = true ↔ ∃ m ∈ ms, m.id = i) ∧
     ((delete_maintenance_event ms i).1 = false →
       (delete_maintenance_event ms i).2 = ms) ∧
     (∀ m, m ∈ (delete_maintenance_event ms i).2 ↔
       m ∈ ms ∧ m.id ≠ i)) ∧
    (((delete_prediction prs i).1 = true ↔ ∃ q ∈ prs, q.id = i) ∧
     ((delete_prediction prs i).1 = false →
       (delete_prediction prs i).2 = prs) ∧
     (∀ q, q ∈ (delete_prediction prs i).2 ↔ q ∈ prs ∧ q.id ≠ i)) :=
  ⟨deleteByPk_spec rs _ i, deleteByPk_spec ts _ i, deleteByPk_spec ps _ i,
   deleteByPk_spec ms _ i, deleteByPk_spec prs _ i⟩

/-- C7, witness: deleting the missing id `42` from a one-robot store
returns `false` and leaves the store unchanged. -/
theorem delete_mutations_spec_witness :
    (delete_robot [{ id := 1, serial := "RBT-001", model := "X",
                     capabilities := [], location := "", status := "IDLE",
                     firmware_version := "", last_seen := none }] 42).2 =
      [{ id := 1, serial := "RBT-001", model := "X",
         capabilities := [], location := "", status := "IDLE",
         firmware_version := "", last_seen := none }] :=
  (delete_mutations_spec
      [{ id := 1, serial := "RBT-001", model := "X", capabilities := [],
         location := "", status := "IDLE", firmware_version := "",
         last_seen := none }] [] [] [] [] 42).1.2.1 (by decide)

/-! ## `Mutation.update_task` (schema.py lines 1469–1489) -/

/-- The strawberry input `UpdateTaskInput`: an id plus all-optional
fields (`None` marks an omitted field).  `assigned_robot_id` is a
GraphQL ID, a nonempty string in transit, modelled as a present key. -/
structure UpdateTaskInput where
  id : Nat
  required_capabilities : Option (List String) := none
  priority : Option Int := none
  deadline : Option Int := none
  assigned_robot_id : Option Nat := none
  status : Option String := none

/-- `Mutation.update_task`: `Task.objects.get(pk=...)` (a missing id
raises `DoesNotExist`, surfaced as a request error), then each field
present in the input (`is not None`) overwrites the task's field; a
present `assigned_robot_id` is resolved eagerly against the robot store
(`DoesNotExist` on failure); `task.save()` writes the updated row back
by primary key.  Returns the written store and the updated task. -/
def update_task (robotStore : List Robot) (store : List Task)
    (data : UpdateTaskInput) : Except String (List Task × Task) :=
  match store.find? (fun t => t.id == data.id) with
  | none => Except.error "Task matching query does not exist."
  | some task0 =>
    let task1 := match data.required_capabilities with
      | some v => { task0 with required_capabilities := v }
      | none => task0
    let task2 := match data.priority with
      | some v => { task1 with priority := v }
      | none => task1
    let task3 := match data.deadline with
      | some v => { task2 with deadline := some v }
      | none => task2
    match data.assigned_robot_id with
    | some rid =>
      match robotStore.find? (fun r => r.id == rid) with
      | none => Except.error "Robot matching query does not exist."
      | some r =>
        let task4 := { task3 with assigned_robot := some r.id }
        let task5 := match data.status with
          | some v => { task4 with status := v }
          | none => task4
        Except.ok
          (store.map fun t => if t.id == data.id then task5 else t, task5)
    | none =>
      let task5 := match data.status with
        | some v => { task3 with status := v }
        | none => task3
      Except.ok
        (store.map fun t => if t.id == data.id then task5 else t, task5)

/-- C6: updating a task with only `id` and `priority := 9` sets the
priority to `9` and leaves `required_capabilities`, `status`, `deadline`
and `assigned_robot` of that task unchanged; the written store replaces
only the task with that id, every task with a different id is still
there; a missing id fails with a not-found error (and, the result being
an error, no store is written). -/
theorem update_task_priority_only (robotStore : List Robot)
    (store : List Task) (i : Nat) :
    (store.find? (fun t => t.id == i) = none →
      update_task robotStore store { id := i, priority := some 9 } =
        Except.error "Task matching query does not exist.") ∧
    (∀ t0, store.find? (fun t => t.id == i) = some t0 →
      update_task robotStore store { id := i, priority := some 9 } =
        Except.ok
          (store.map fun t =>
            if t.id == i then { t0 with priority := 9 } else t,
           { t0 with priority := 9 }) ∧
      ({ t0 with priority := 9 } : Task).required_capabilities =
        t0.required_capabilities ∧
      ({ t0 with priority := 9 } : Task).status = t0.status ∧
      ({ t0 with priority := 9 } : Task).deadline = t0.deadline ∧
      ({ t0 with priority := 9 } : Task).assigned_robot =
        t0.assigned_robot ∧
      (∀ u ∈ store, u.id ≠ i →
        u ∈ store.map fun t =>
          if t.id == i then { t0 with priority := 9 } else t)) := by
  constructor
  · intro hf
    simp [update_task, hf]
  · intro t0 hf
    refine ⟨by simp [update_task, hf], rfl, rfl, rfl, rfl, ?_⟩
    intro u hu hne
    refine List.mem_map.mpr ⟨u, hu, ?_⟩
    simp [hne]

/-- C6, witness: a two-task store; updating task `1` with only
`priority := 9` rewrites only that task, keeping its other fields, and
task `2` is untouched. -/
theorem update_task_priority_only_witness :
    update_task []
        [{ id := 1, required_capabilities := ["welding"],
           status := "PENDING", assigned_robot := none, priority := 3,
           deadline := some 50, created_at := 0 },
         { id := 2, required_capabilities := [], status := "RUNNING",
           assigned_robot := some 7, priority := 4, deadline := none,
           created_at := 1 }]
        { id := 1, priority := some 9 } =
      Except.ok
        ([{ id := 1, required_capabilities := ["welding"],
            status := "PENDING", assigned_robot := none, priority := 9,
            deadline := some 50, created_at := 0 },
          { id := 2, required_capabilities := [], status := "RUNNING",
            assigned_robot := some 7, priority := 4, deadline := none,
            created_at := 1 }],
         { id := 1, required_capabilities := ["welding"],
           status := "PENDING", assigned_robot := none, priority := 9,
           deadline := some 50, created_at := 0 }) :=
  ((update_task_priority_only []
      [{ id := 1, required_capabilities := ["welding"],
         status := "PENDING", assigned_robot := none, priority := 3,
         deadline := some 50, created_at := 0 },
       { id := 2, required_capabilities := [], status := "RUNNING",
         assigned_robot := some 7, priority := 4, deadline := none,
         created_at := 1 }] 1).2
    { id := 1, required_capabilities := ["welding"], status := "PENDING",
      assigned_robot := none, priority := 3, deadline := some 50,
      created_at := 0 } (by decide)).1

/-! ## `Mutation.create_robot` / `Mutation.update_robot`
(schema.py lines 1369–1396, 1398–1431) -/

/-- Python's `x or dflt` on an optional string: `None` and `""` are
falsy. -/
def pyOr (o : Option String) (dflt : String) : String :=
  match o with
  | some s => if s = "" then dflt else s
  | none => dflt

/-- Python's `x or []` on an optional list (an empty list is falsy, and
`[] or []` is `[]`, so this is `getD []`). -/
def pyOrList (o : Option (List String)) : List String :=
  match o with
  | some l => l
  | none => []

/-- The strawberry input `CreateRobotInput`. -/
structure CreateRobotInput where
  serial : String
  model : String
  capabilities : Option (List String) := none
  location : Option String := none
  status : Option String := none
  firmware_version : Option String := none

/-- `Mutation.create_robot`: `Robot.objects.create(...)` with Python
`or`-defaults — `status = data.status or "IDLE"`.  The status string is
stored as given: no check against `RobotStatus` happens anywhere on the
path (Django validates `choices` only in `full_clean`, which
`objects.create` does not call). -/
def create_robot (store : List Robot) (nextId : Nat)
    (data : CreateRobotInput) : List Robot × Robot :=
  let robot : Robot :=
    { id := nextId
      serial := data.serial
      model := data.model
      capabilities := pyOrList data.capabilities
      location := pyOr data.location ""
      status := pyOr data.status "IDLE"
      firmware_version := pyOr data.firmware_version ""
      last_seen := none }
  (store ++ [robot], robot)

/-- The strawberry input `UpdateRobotInput`. -/
structure UpdateRobotInput where
  id : Nat
  serial : Option String := none
  model : Option String := none
  capabilities : Option (List String) := none
  location : Option String := none
  status : Option String := none
  firmware_version : Option String := none
  last_seen : Option Int := none

/-- `Mutation.update_robot`: partial update, each field guarded by
`is not None`; the status string is stored as given, unvalidated. -/
def update_robot (store : List Robot) (data : UpdateRobotInput) :
    Except String (List Robot × Robot) :=
  match store.find? (fun r => r.id == data.id) with
  | none => Except.error "Robot matching query does not exist."
  | some r0 =>
    let r1 := match data.serial with
      | some v => { r0 with serial := v }
      | none => r0
    let r2 := match data.model with
      | some v => { r1 with model := v }
      | none => r1
    let r3 := match data.capabilities with
      | some v => { r2 with capabilities := v }
      | none => r2
    let r4 := match data.location with
      | some v => { r3 with location := v }
      | none => r3
    let r5 := match data.status with
      | some v => { r4 with status := v }
      | none => r4
    let r6 := match data.firmware_version with
      | some v => { r5 with firmware_version := v }
      | none => r5
    let r7 := match data.last_seen with
      | some v => { r6 with last_seen := some v }
      | none => r6
    Except.ok (store.map (fun r => if r.id == data.id then r7 else r), r7)

/-- C8, evaluation at the failing input: `create_robot` with the
malformed status `"BOGUS"` stores the robot with that status — no
validation error precedes the write — and `update_robot` likewise
writes the malformed status `"NONSENSE"` onto a stored robot; neither
string is a `RobotStatus` value. -/
theorem invalid_status_reaches_storage :
    ((create_robot [] 1
        { serial := "RBT-001", model := "X",
          status := some "BOGUS" }).2.status = "BOGUS") ∧
    ((create_robot [] 1
        { serial := "RBT-001", model := "X",
          status := some "BOGUS" }).2 ∈
      (create_robot [] 1
        { serial := "RBT-001", model := "X",
          status := some "BOGUS" }).1) ∧
    update_robot
        [{ id := 1, serial := "RBT-001", model := "X",
           capabilities := [], location := "", status := "IDLE",
           firmware_version := "", last_seen := none }]
        { id := 1, status := some "NONSENSE" } =
      Except.ok
        ([{ id := 1, serial := "RBT-001", model := "X",
            capabilities := [], location := "", status := "NONSENSE",
            firmware_version := "", last_seen := none }],
         { id := 1, serial := "RBT-001", model := "X",
           capabilities := [], location := "", status := "NONSENSE",
           firmware_version := "", last_seen := none }) ∧
    "BOGUS" ∉ robotStatusValues ∧
    "NONSENSE" ∉ robotStatusValues := by
  refine ⟨rfl, by decide, rfl, by decide, by decide⟩

/-! ## `Mutation.assign_tasks_to_robots_by_capability`
(schema.py lines 1724–1783) -/

/-- `Task.objects.filter(pk__in=task_ids, status="PENDING")`: the tasks
the mutation considers, snapshotted before any assignment.  (The
database may hand them back in its default order; every property proved
below is per-task and independent of that order.) -/
def consideredTasks (taskStore : List Task) (task_ids : List Nat) :
    List Task :=
  taskStore.filter (fun t => task_ids.contains t.id &&
    t.status == "PENDING")

/-- `Robot.objects.filter(status__in=["IDLE", "ACTIVE"])`, snapshotted
once before the loop. -/
def availableRobots (robotStore : List Robot) : List Robot :=
  robotStore.filter (fun r => r.status == "IDLE" || r.status == "ACTIVE")

/-- The lambda-filter inside `assign_task`: available robots holding
every required capability of the task. -/
def matchingRobots (avail : List Robot) (t : Task) : List Robot :=
  avail.filter (fun r =>
    t.required_capabilities.all (fun c => r.capabilities.contains c))

/-- `r.assigned_tasks.filter(status__in=["PENDING", "ASSIGNED",
"RUNNING"]).count()` — a live count against the current task store. -/
def busyCount (taskStore : List Task) (r : Robot) : Nat :=
  (taskStore.filter (fun t => t.assigned_robot == some r.id &&
    (t.status == "PENDING" || t.status == "ASSIGNED" ||
     t.status == "RUNNING"))).length

/-- Python's `min(xs, key=...)`: the first element attaining the least
key, scanning left to right. -/
def minByKey (key : α → Nat) (a : α) : List α → α
  | [] => a
  | b :: l => if key b < key a then minByKey key b l else minByKey key a l

theorem minByKey_mem (key : α → Nat) (a : α) (l : List α) :
    minByKey key a l ∈ a :: l := by
  induction l generalizing a with
  | nil => simp [minByKey]
  | cons b l ih =>
    by_cases h : key b < key a
    · simp only [minByKey, if_pos h]
      rcases List.mem_cons.mp (ih b) with h2 | h2
      · rw [h2]
        exact List.mem_cons_of_mem _ (List.mem_cons_self _ _)
      · exact List.mem_cons_of_mem _ (List.mem_cons_of_mem _ h2)
    · simp only [minByKey, if_neg h]
      rcases List.mem_cons.mp (ih a) with h2 | h2
      · rw [h2]
        exact List.mem_cons_self _ _
      · exact List.mem_cons_of_mem _ (List.mem_cons_of_mem _ h2)

theorem minByKey_le (key : α → Nat) (a : α) (l : List α) :
    ∀ x ∈ a :: l, key (minByKey key a l) ≤ key x := by
  induction l generalizing a with
  | nil => simp [minByKey]
  | cons b l ih =>
    intro x hx
    by_cases h : key b < key a
    · simp only [minByKey, if_pos h]
      rcases List.mem_cons.mp hx with h2 | h2
      · subst h2
        exact le_of_lt (lt_of_le_of_lt
          (ih b b (List.mem_cons_self _ _)) h)
      · exact ih b x h2
    · simp only [minByKey, if_neg h]
      rcases List.mem_cons.mp hx with h2 | h2
      · subst h2
        exact ih x x (List.mem_cons_self _ _)
      · rcases List.mem_cons.mp h2 with h3 | h3
        · subst h3
          exact le_trans (ih a a (List.mem_cons_self _ _))
            (not_lt.mp h)
        · exact ih a x (List.mem_cons_of_mem _ h3)

/-- The body of the inner `assign_task` helper: find the matching
robots; if any, pick the one with the fewest live tasks (`min` with the
busy-count key), point the task at it, set the status to `ASSIGNED` and
save; otherwise return the task untouched.  Produces the task store
after the step and the returned task. -/
def assignStep (avail : List Robot) (taskStore : List Task) (t : Task) :
    List Task × Task :=
  match matchingRobots avail t with
  | [] => (taskStore, t)
  | r :: rest =>
    let best := minByKey (busyCount taskStore) r rest
    let t2 := { t with assigned_robot := some best.id,
                       status := "ASSIGNED" }
    (taskStore.map (fun u => if u.id == t.id then t2 else u), t2)

/-- The `map(lambda t: assign_task(t), tasks)` loop: each step sees the
task store left by the previous saves. -/
def assignRun (avail : List Robot) (taskStore : List Task) :
    List Task → List Task × List Task
  | [] => (taskStore, [])
  | t :: ts =>
    let s1 := (assignStep avail taskStore t).1
    let t2 := (assignStep avail taskStore t).2
    ((assignRun avail s1 ts).1, t2 :: (assignRun avail s1 ts).2)

/-- `Mutation.assign_tasks_to_robots_by_capability`: returns the final
task store and the list of returned tasks. -/
def assign_tasks_to_robots_by_capability (robotStore : List Robot)
    (taskStore : List Task) (task_ids : List Nat) :
    List Task × List Task :=
  assignRun (availableRobots robotStore) taskStore
    (consideredTasks taskStore task_ids)

theorem assignRun_length (avail : List Robot) (l : List Task) :
    ∀ store : List Task, (assignRun avail store l).2.length = l.length := by
  induction l with
  | nil => intro store; rfl
  | cons t ts ih =>
    intro store
    simp only [assignRun, List.length_cons]
    rw [ih]

theorem assignStep_spec (avail : List Robot) (store : List Task)
    (t : Task) :
    (matchingRobots avail t = [] → assignStep avail store t = (store, t)) ∧
    (matchingRobots avail t ≠ [] →
      ∃ b ∈ matchingRobots avail t,
        (assignStep avail store t).2 =
          { t with assigned_robot := some b.id, status := "ASSIGNED" } ∧
        ∀ b2 ∈ matchingRobots avail t,
          busyCount store b ≤ busyCount store b2) := by
  constructor
  · intro h
    simp [assignStep, h]
  · intro h
    cases hm : matchingRobots avail t with
    | nil => exact absurd hm h
    | cons r rest =>
      refine ⟨minByKey (busyCount store) r rest, ?_, ?_, ?_⟩
      · exact minByKey_mem _ r rest
      · simp [assignStep, hm]
      · intro b2 hb2
        exact minByKey_le _ r rest b2 hb2

theorem assignRun_get_spec (avail : List Robot) (l : List Task) :
    ∀ (store : List Task) (i : Nat) (h1 : i < l.length)
      (h2 : i < (assignRun avail store l).2.length),
      (matchingRobots avail (l.get ⟨i, h1⟩) = [] →
        (assignRun avail store l).2.get ⟨i, h2⟩ = l.get ⟨i, h1⟩) ∧
      (matchingRobots avail (l.get ⟨i, h1⟩) ≠ [] →
        ∃ b ∈ matchingRobots avail (l.get ⟨i, h1⟩),
          (assignRun avail store l).2.get ⟨i, h2⟩ =
            { l.get ⟨i, h1⟩ with assigned_robot := some b.id,
                                 status := "ASSIGNED" } ∧
          ∀ b2 ∈ matchingRobots avail (l.get ⟨i, h1⟩),
            busyCount (assignRun avail store (l.take i)).1 b ≤
              busyCount (assignRun avail store (l.take i)).1 b2) := by
  induction l with
  | nil =>
    intro store i h1 h2
    exact absurd h1 (by simp)
  | cons t ts ih =>
    intro store i h1 h2
    cases i with
    | zero =>
      constructor
      · intro hm
        have hstep := (assignStep_spec avail store t).1 hm
        show (assignRun avail store (t :: ts)).2.get ⟨0, h2⟩ = t
        simp only [assignRun, List.get]
        rw [hstep]
      · intro hm
        obtain ⟨b, hbmem, heq, hmin⟩ := (assignStep_spec avail store t).2 hm
        refine ⟨b, hbmem, ?_, ?_⟩
        · show (assignRun avail store (t :: ts)).2.get ⟨0, h2⟩ = _
          simp only [assignRun, List.get]
          exact heq
        · intro b2 hb2
          show busyCount (assignRun avail store ((t :: ts).take 0)).1 b ≤
            busyCount (assignRun avail store ((t :: ts).take 0)).1 b2
          simp only [List.take_zero, assignRun]
          exact hmin b2 hb2
    | succ j =>
      have h1x : j < ts.length := Nat.lt_of_succ_lt_succ h1
      have h2x : j <
          (assignRun avail (assignStep avail store t).1 ts).2.length := by
        have := h2
        simp only [assignRun, List.length_cons] at this
        exact Nat.lt_of_succ_lt_succ this
      have hx := ih (assignStep avail store t).1 j h1x h2x
      constructor
      · intro hm
        have := hx.1 (by simpa using hm)
        simpa [assignRun] using this
      · intro hm
        obtain ⟨b, hbmem, heq, hmin⟩ := hx.2 (by simpa using hm)
        refine ⟨b, by simpa using hbmem, ?_, ?_⟩
        · simpa [assignRun] using heq
        · intro b2 hb2
          have := hmin b2 (by simpa using hb2)
          simpa [assignRun, List.take_succ_cons] using this

theorem mem_matchingRobots (rs : List Robot) (t : Task) (b : Robot) :
    b ∈ matchingRobots (availableRobots rs) t ↔
      b ∈ rs ∧ (b.status = "IDLE" ∨ b.status = "ACTIVE") ∧
      ∀ c ∈ t.required_capabilities, c ∈ b.capabilities := by
  simp only [matchingRobots, availableRobots, List.mem_filter,
    List.all_eq_true, List.elem_iff, decide_eq_true_eq,
    Bool.or_eq_true, beq_iff_eq, and_assoc]

/-- C9: only the tasks among `taskIds` whose status is `PENDING` are
considered; each considered task yields one returned task at the same
position; a considered task with no fully-matching robot is returned
unchanged; and an assigned task's robot was `IDLE` or `ACTIVE` when
snapshotted, holds every required capability, minimises the live
`PENDING`/`ASSIGNED`/`RUNNING` task count (against the store as of that
step) among the matching robots, and the task's status becomes
`ASSIGNED` pointing at that robot. -/
theorem assign_tasks_by_capability_spec (robotStore : List Robot)
    (taskStore : List Task) (ids : List Nat) (t : Task) :
    (t ∈ consideredTasks taskStore ids ↔
       t ∈ taskStore ∧ t.id ∈ ids ∧ t.status = "PENDING") ∧
    ((assign_tasks_to_robots_by_capability robotStore taskStore
        ids).2.length = (consideredTasks taskStore ids).length) ∧
    (∀ i (h1 : i < (consideredTasks taskStore ids).length)
       (h2 : i < (assign_tasks_to_robots_by_capability robotStore
         taskStore ids).2.length),
      (matchingRobots (availableRobots robotStore)
          ((consideredTasks taskStore ids).get ⟨i, h1⟩) = [] →
        (assign_tasks_to_robots_by_capability robotStore taskStore
            ids).2.get ⟨i, h2⟩ =
          (consideredTasks taskStore ids).get ⟨i, h1⟩) ∧
      (matchingRobots (availableRobots robotStore)
          ((consideredTasks taskStore ids).get ⟨i, h1⟩) ≠ [] →
        ∃ b, b ∈ robotStore ∧
          (b.status = "IDLE" ∨ b.status = "ACTIVE") ∧
          (∀ c ∈ ((consideredTasks taskStore ids).get
              ⟨i, h1⟩).required_capabilities, c ∈ b.capabilities) ∧
          (assign_tasks_to_robots_by_capability robotStore taskStore
              ids).2.get ⟨i, h2⟩ =
            { (consideredTasks taskStore ids).get ⟨i, h1⟩ with
                assigned_robot := some b.id, status := "ASSIGNED" } ∧
          ∀ b2 ∈ matchingRobots (availableRobots robotStore)
              ((consideredTasks taskStore ids).get ⟨i, h1⟩),
            busyCount (assignRun (availableRobots robotStore) taskStore
              ((consideredTasks taskStore ids).take i)).1 b ≤
            busyCount (assignRun (availableRobots robotStore) taskStore
              ((consideredTasks taskStore ids).take i)).1 b2)) := by
  refine ⟨?_, ?_, ?_⟩
  · simp [consideredTasks, List.mem_filter, and_assoc]
  · exact assignRun_length (availableRobots robotStore)
      (consideredTasks taskStore ids) taskStore
  · intro i h1 h2
    have hx := assignRun_get_spec (availableRobots robotStore)
      (consideredTasks taskStore ids) taskStore i h1 h2
    refine ⟨hx.1, ?_⟩
    intro hm
    obtain ⟨b, hb, heq, hmin⟩ := hx.2 hm
    obtain ⟨hbs, hstat, hcaps⟩ := (mem_matchingRobots robotStore _ b).mp hb
    exact ⟨b, hbs, hstat, hcaps, heq, hmin⟩

/-- C9, witness: one `IDLE` welding robot and one `PENDING` welding
task — the mutation assigns the task to the robot and marks it
`ASSIGNED` (the theorem applied at this store fixes the returned list's
shape; the evaluation confirms it). -/
theorem assign_tasks_by_capability_spec_witness :
    (assign_tasks_to_robots_by_capability
        [{ id := 1, serial := "RBT-001", model := "X",
           capabilities := ["welding"], location := "",
           status := "IDLE", firmware_version := "",
           last_seen := none }]
        [{ id := 1, required_capabilities := ["welding"],
           status := "PENDING", assigned_robot := none, priority := 0,
           deadline := none, created_at := 0 }]
        [1]).2 =
      [{ id := 1, required_capabilities := ["welding"],
         status := "ASSIGNED", assigned_robot := some 1, priority := 0,
         deadline := none, created_at := 0 }] := by
  decide

end RobotAPI
